import Mathlib

/-!
Verification of the Bob Moog Google-doodle synthesizer core.

This development shallowly embeds the signal-generation core of the doodle
(`envelope_generator.js`, `oscillator.js`, `low_pass_filter.js`) in Lean and
proves the behavioural properties stated in the specification.

JavaScript numbers are modelled as rationals (`ℚ`): all the envelope,
phase-accumulator and glide arithmetic is field arithmetic with comparisons,
which `ℚ` models exactly while keeping every definition executable.  The one
place the source computes an irrational value — `Math.pow(2, x)` in the
oscillator's note-to-frequency map — is modelled over `ℝ` with `Real.rpow`.
-/

namespace Moog

/-- Phases of the ADSD envelope (`EnvelopeGenerator.Phase_` in the source). -/
inductive Phase where
  | ATTACK
  | DECAY
  | SUSTAIN
  | RELEASE
  | INACTIVE
deriving DecidableEq, Repr

/-- State of `doodle.moog.EnvelopeGenerator`: the constant sample interval,
the current amplitude coefficient and phase, the mutable attack/decay/sustain
parameters, and the cached per-sample steps. -/
structure EnvelopeGenerator where
  SAMPLE_INTERVAL : ℚ
  amplitudeCoefficient : ℚ
  phase : Phase
  attackTime : ℚ
  attackStep : ℚ
  decayTime : ℚ
  decayStep : ℚ
  sustainLevel : ℚ
  releaseStep : ℚ
deriving DecidableEq, Repr

/-- `EnvelopeGenerator.prototype.recomputePhaseSteps_`: refresh the cached
per-sample steps from the current parameters.  A non-positive attack or decay
time sets the corresponding step(s) explicitly to `1`; the divisions only occur
on the branch where the divisor is positive. -/
def recomputePhaseSteps (e : EnvelopeGenerator) : EnvelopeGenerator :=
  let e₁ :=
    if e.attackTime ≤ 0 then
      { e with attackStep := 1 }
    else
      { e with attackStep := e.SAMPLE_INTERVAL / e.attackTime }
  if e₁.decayTime ≤ 0 then
    { e₁ with decayStep := 1, releaseStep := 1 }
  else
    { e₁ with
      decayStep := (1 - e₁.sustainLevel) * e₁.SAMPLE_INTERVAL / e₁.decayTime,
      releaseStep := e₁.sustainLevel * e₁.SAMPLE_INTERVAL / e₁.decayTime }

/-- The `doodle.moog.EnvelopeGenerator` constructor: amplitude 0, phase
INACTIVE, then `recomputePhaseSteps_` fills in the step fields (initialised
here with placeholder 0, as every step field is assigned before first use). -/
def mkEnvelopeGenerator (sampleInterval attackTime decayTime sustainLevel : ℚ) :
    EnvelopeGenerator :=
  recomputePhaseSteps
    { SAMPLE_INTERVAL := sampleInterval
      amplitudeCoefficient := 0
      phase := Phase.INACTIVE
      attackTime := attackTime
      attackStep := 0
      decayTime := decayTime
      decayStep := 0
      sustainLevel := sustainLevel
      releaseStep := 0 }

/-- `EnvelopeGenerator.prototype.startAttack`. -/
def startAttack (e : EnvelopeGenerator) : EnvelopeGenerator :=
  let e₁ := recomputePhaseSteps e
  { e₁ with amplitudeCoefficient := 0, phase := Phase.ATTACK }

/-- `EnvelopeGenerator.prototype.startRelease`: early-returns when already in
RELEASE; otherwise computes the release step from the current amplitude
coefficient (or sets it to `1` when the decay time is non-positive) and enters
RELEASE. -/
def startRelease (e : EnvelopeGenerator) : EnvelopeGenerator :=
  if e.phase = Phase.RELEASE then
    e
  else
    let e₁ :=
      if e.decayTime ≤ 0 then
        { e with releaseStep := 1 }
      else
        { e with
          releaseStep := e.amplitudeCoefficient * e.SAMPLE_INTERVAL / e.decayTime }
    { e₁ with phase := Phase.RELEASE }

/-- `EnvelopeGenerator.prototype.getNextAmplitudeCoefficient`: advance the
envelope by one sample, returning the new amplitude coefficient together with
the updated state. -/
def getNextAmplitudeCoefficient (e : EnvelopeGenerator) :
    ℚ × EnvelopeGenerator :=
  let e₁ :=
    match e.phase with
    | Phase.ATTACK =>
        let a := e.amplitudeCoefficient + e.attackStep
        if 1 ≤ a then
          { e with amplitudeCoefficient := 1, phase := Phase.DECAY }
        else
          { e with amplitudeCoefficient := a }
    | Phase.DECAY =>
        let a := e.amplitudeCoefficient - e.decayStep
        if a ≤ e.sustainLevel then
          { e with amplitudeCoefficient := e.sustainLevel, phase := Phase.SUSTAIN }
        else
          { e with amplitudeCoefficient := a }
    | Phase.SUSTAIN => e
    | Phase.RELEASE =>
        let a := e.amplitudeCoefficient - e.releaseStep
        if a ≤ 0 then
          { e with amplitudeCoefficient := 0, phase := Phase.INACTIVE }
        else
          { e with amplitudeCoefficient := a }
    | Phase.INACTIVE => e
  (e₁.amplitudeCoefficient, e₁)

/-- `EnvelopeGenerator.prototype.setAttackTime`. -/
def setAttackTime (e : EnvelopeGenerator) (time : ℚ) : EnvelopeGenerator :=
  recomputePhaseSteps { e with attackTime := time }

/-- `EnvelopeGenerator.prototype.setDecayTime`. -/
def setDecayTime (e : EnvelopeGenerator) (time : ℚ) : EnvelopeGenerator :=
  recomputePhaseSteps { e with decayTime := time }

/-- `EnvelopeGenerator.prototype.setSustainLevel`. -/
def setSustainLevel (e : EnvelopeGenerator) (level : ℚ) : EnvelopeGenerator :=
  recomputePhaseSteps { e with sustainLevel := level }

/-- One envelope sampling step, keeping only the state. -/
def envStep (e : EnvelopeGenerator) : EnvelopeGenerator :=
  (getNextAmplitudeCoefficient e).2

/-- The envelope state after `n` sampling steps. -/
def envIter (e : EnvelopeGenerator) (n : ℕ) : EnvelopeGenerator :=
  envStep^[n] e

/-- Inductive invariant for the ADSD trajectory of claim C1: parameters and
cached steps stay fixed along the trace, the phase never leaves
ATTACK/DECAY/SUSTAIN, and the amplitude is bounded per phase. -/
def C1Inv (si aT dT sL : ℚ) (e : EnvelopeGenerator) : Prop :=
  e.SAMPLE_INTERVAL = si ∧ e.attackTime = aT ∧ e.decayTime = dT ∧
  e.sustainLevel = sL ∧ e.attackStep = si / aT ∧
  e.decayStep = (1 - sL) * si / dT ∧
  (e.phase = Phase.ATTACK ∨ e.phase = Phase.DECAY ∨ e.phase = Phase.SUSTAIN) ∧
  (e.phase = Phase.ATTACK → 0 ≤ e.amplitudeCoefficient ∧ e.amplitudeCoefficient < 1) ∧
  (e.phase = Phase.DECAY → sL ≤ e.amplitudeCoefficient ∧ e.amplitudeCoefficient ≤ 1) ∧
  (e.phase = Phase.SUSTAIN → e.amplitudeCoefficient = sL)

/-- The operations a client can perform on an `EnvelopeGenerator`. -/
inductive EnvOp where
  | opStartAttack
  | opStartRelease
  | opSample
  | opSetAttackTime (t : ℚ)
  | opSetDecayTime (t : ℚ)
  | opSetSustainLevel (l : ℚ)
deriving DecidableEq, Repr

/-- Apply one client operation to the envelope state. -/
def applyEnvOp (e : EnvelopeGenerator) : EnvOp → EnvelopeGenerator
  | EnvOp.opStartAttack => startAttack e
  | EnvOp.opStartRelease => startRelease e
  | EnvOp.opSample => envStep e
  | EnvOp.opSetAttackTime t => setAttackTime e t
  | EnvOp.opSetDecayTime t => setDecayTime e t
  | EnvOp.opSetSustainLevel l => setSustainLevel e l

/-- Apply a sequence of client operations, left to right. -/
def applyEnvOps (e : EnvelopeGenerator) (ops : List EnvOp) : EnvelopeGenerator :=
  ops.foldl applyEnvOp e

/-- An operation is valid when every sustain level it installs lies in
`[0, 1]` (the claim C4 constraint on `setSustainLevel`). -/
def ValidEnvOp : EnvOp → Prop
  | EnvOp.opSetSustainLevel l => 0 ≤ l ∧ l ≤ 1
  | _ => True

/-- Inductive invariant for claim C4: nonnegative sample interval, sustain
level in `[0, 1]`, amplitude in `[0, 1]` and nonnegative cached steps. -/
def C4Inv (e : EnvelopeGenerator) : Prop :=
  0 ≤ e.SAMPLE_INTERVAL ∧ 0 ≤ e.sustainLevel ∧ e.sustainLevel ≤ 1 ∧
  0 ≤ e.amplitudeCoefficient ∧ e.amplitudeCoefficient ≤ 1 ∧
  0 ≤ e.attackStep ∧ 0 ≤ e.decayStep ∧ 0 ≤ e.releaseStep

/-- `Oscillator.prototype.advancedPhase_`: when the accumulated phase strictly
exceeds the cycle length `2 / frequency`, subtract one cycle length; report the
progress made in the current cycle, then advance the accumulator by one sample
interval.  Returns `(progressInCycle, new phase accumulator)`. -/
def advancedPhase (phase si frequency : ℚ) : ℚ × ℚ :=
  let cycleLengthInSeconds := 2 / frequency
  let p :=
    if cycleLengthInSeconds < phase then phase - cycleLengthInSeconds else phase
  (p * frequency / 2, p + si)

/-- The oscillator phase accumulator after `n` per-sample advances at a fixed
frequency. -/
def phaseRun (si frequency phase : ℚ) (n : ℕ) : ℚ :=
  (fun p => (advancedPhase p si frequency).2)^[n] phase

/-- The glide (portamento) portion of the oscillator state: the glide enable
flag and duration, the constant sample interval, and the three nullable fields
`glideDelta_`, `currentGlidePitch_`, `targetGlidePitch_` (null until the first
tone is played). -/
structure GlideState where
  isGlideOn : Bool
  glideDuration : ℚ
  SAMPLE_INTERVAL : ℚ
  glideDelta : Option ℚ
  currentGlidePitch : Option ℚ
  targetGlidePitch : Option ℚ
deriving DecidableEq, Repr

/-- JavaScript loose inequality `field != target` for a nullable numeric
field: `null` is different from every number. -/
def jsOptNe (o : Option ℚ) (x : ℚ) : Bool :=
  match o with
  | none => true
  | some v => v != x

/-- `Oscillator.prototype.getGlideFrequency_`: if glide is off, or no note has
glided yet, or the glide duration is non-positive, or the remaining distance
is within one (possibly stale) glide step — where JavaScript evaluates
`Math.abs(null)` as `0` — snap current and target glide pitch to the target
and return it.  Otherwise recompute the per-sample delta when the target
changed, advance the current glide pitch by the delta and return it.
Returns `(returned frequency, updated state)`. -/
def getGlideFrequency (s : GlideState) (target : ℚ) : ℚ × GlideState :=
  if ¬s.isGlideOn ∨ s.currentGlidePitch = none ∨ s.glideDuration ≤ 0 ∨
      |s.currentGlidePitch.getD 0 - target| ≤ |s.glideDelta.getD 0| then
    (target,
      { s with currentGlidePitch := some target, targetGlidePitch := some target })
  else
    let s₁ :=
      if jsOptNe s.targetGlidePitch target then
        { s with
          glideDelta := some ((target - s.currentGlidePitch.getD 0) /
            (s.glideDuration / s.SAMPLE_INTERVAL)),
          targetGlidePitch := some target }
      else s
    let c := s₁.currentGlidePitch.getD 0 + s₁.glideDelta.getD 0
    (c, { s₁ with currentGlidePitch := some c })

/-- The glide state after `n` calls of `getGlideFrequency_` with a fixed
target. -/
def glideIter (t : ℚ) (s : GlideState) (n : ℕ) : GlideState :=
  (fun st => (getGlideFrequency st t).2)^[n] s

/-- The frequency returned by the `(n+1)`-st call of `getGlideFrequency_`
with a fixed target. -/
def glideOut (t : ℚ) (s : GlideState) (n : ℕ) : ℚ :=
  (getGlideFrequency (glideIter t s n) t).1

/-- The glide state after calling `getGlideFrequency_` once per target in the
given list, left to right. -/
def glideRunTargets (s : GlideState) (ts : List ℚ) : GlideState :=
  ts.foldl (fun st t => (getGlideFrequency st t).2) s

/-- One scheduling operation on a Web Audio `AudioParam` (the filter node's
`frequency` parameter). -/
inductive AudioParamCmd where
  | cancelScheduledValues (t : ℚ)
  | setValue (v : ℚ)
  | setValueAtTime (v t : ℚ)
  | exponentialRampToValueAtTime (v t : ℚ)
deriving DecidableEq, Repr

/-- Parameter state of `doodle.moog.LowPassFilter`: cutoff frequency, contour,
and the contour envelope's attack/decay/sustain parameters. -/
structure LowPassFilter where
  cutoffFrequency : ℚ
  contour : ℚ
  attackTime : ℚ
  decayTime : ℚ
  sustainLevel : ℚ
deriving DecidableEq, Repr

/-- `LowPassFilter.prototype.startAttack`: the operations performed on the
filter node's `frequency` parameter, in program order, with `now` the audio
context's current time.  The direct `.value` assignment is recorded as
`setValue`. -/
def LowPassFilter.startAttack (f : LowPassFilter) (now : ℚ) : List AudioParamCmd :=
  let contourFrequency := f.contour * f.cutoffFrequency
  [AudioParamCmd.cancelScheduledValues now,
   AudioParamCmd.setValue f.cutoffFrequency,
   AudioParamCmd.setValueAtTime f.cutoffFrequency now,
   AudioParamCmd.exponentialRampToValueAtTime contourFrequency
     (now + f.attackTime),
   AudioParamCmd.exponentialRampToValueAtTime
     (f.cutoffFrequency +
       f.sustainLevel * (contourFrequency - f.cutoffFrequency))
     (now + f.attackTime + f.decayTime)]

/-- Wave shapes of `OscillatorInterface.WaveForm`. -/
inductive WaveForm where
  | TRIANGLE
  | SAWANGLE
  | RAMP
  | REVERSE_RAMP
  | SQUARE
  | FAT_PULSE
  | PULSE
deriving DecidableEq, Repr

/-- Buffer fill modes of `OscillatorInterface.FillMode`. -/
inductive FillMode where
  | CLOBBER
  | ADD
  | MIX
deriving DecidableEq, Repr

/-- The waveform switch in `fillAudioBuffer`: map the progress in the current
cycle to a signal level, per wave shape. -/
def waveformLevel (w : WaveForm) (progressInCycle : ℚ) : ℚ :=
  match w with
  | WaveForm.TRIANGLE =>
      4 * ((if progressInCycle > 0.5 then 1 - progressInCycle
            else progressInCycle) - 0.25)
  | WaveForm.SAWANGLE =>
      if progressInCycle < 0.5 then 4 * progressInCycle - 1
      else -2 * progressInCycle + 1
  | WaveForm.RAMP => 2 * (progressInCycle - 0.5)
  | WaveForm.REVERSE_RAMP => -2 * (progressInCycle - 0.5)
  | WaveForm.SQUARE => if progressInCycle < 0.5 then 1 else -1
  | WaveForm.FAT_PULSE => if progressInCycle < 1/3 then 1 else -1
  | WaveForm.PULSE => if progressInCycle < 0.25 then 1 else -1

/-- `Oscillator.prototype.getModulationFrequency_`: no modulation when the
modulator signal is absent or frequency modulation is off; otherwise scale the
base frequency by `modulatorSample * 0.75 + 1.25`. -/
def getModulationFrequency (isFrequencyModulationOn : Bool) (baseFrequency : ℚ)
    (modulatorSignal : Option (ℕ → ℚ)) (index : ℕ) : ℚ :=
  match modulatorSignal with
  | none => baseFrequency
  | some ms =>
      if ¬isFrequencyModulationOn then baseFrequency
      else (ms index * 0.75 + 1.25) * baseFrequency

/-- The oscillator state read and written by the `fillAudioBuffer` loop: the
sample interval, the running phase accumulator, volume, wave shape, the
frequency-modulation and modulator flags and level, the internally owned
modulator-signal buffer (null iff not a modulator), the glide fields (grouped
in a `GlideState`, whose `SAMPLE_INTERVAL` is this oscillator's), and the
owned envelope generator. -/
structure Oscillator where
  SAMPLE_INTERVAL : ℚ
  phase : ℚ
  volume : ℚ
  waveForm : WaveForm
  isFrequencyModulationOn : Bool
  IS_MODULATOR : Bool
  modulatorLevel : ℚ
  modulatorSignal : Option (ℕ → ℚ)
  glide : GlideState
  envelopeGenerator : EnvelopeGenerator

/-- A stereo output buffer: `right` is channel 0, `left` is channel 1 (absent
when the audio engine created a single channel). -/
structure StereoBuffer where
  right : ℕ → ℚ
  left : Option (ℕ → ℚ)

/-- The body of the `fillAudioBuffer` loop at sample index `i`, minus the
buffer writes: pull the next envelope coefficient, compute the glided and
modulated frequency (times the pitch-bend ratio), advance the phase, read the
waveform level, store the modulator sample when this oscillator is a
modulator, and return the audio level `level * volume * envelopeCoefficient`
together with the updated oscillator state.  `targetFrequency` and
`pitchBend` are the loop-invariant values `fillAudioBuffer` computes before
the loop (their note-to-frequency computation is real-valued,
cf. `getInstantaneousFrequency`). -/
def oscStep (targetFrequency pitchBend : ℚ) (modulatorSignal : Option (ℕ → ℚ))
    (i : ℕ) (o : Oscillator) : ℚ × Oscillator :=
  let env := getNextAmplitudeCoefficient o.envelopeGenerator
  let gl := getGlideFrequency o.glide targetFrequency
  let freq := pitchBend *
    getModulationFrequency o.isFrequencyModulationOn gl.1 modulatorSignal i
  let ph := advancedPhase o.phase o.SAMPLE_INTERVAL freq
  let level := waveformLevel o.waveForm ph.1
  let o₁ := { o with envelopeGenerator := env.2, glide := gl.2, phase := ph.2 }
  let o₂ :=
    if o₁.IS_MODULATOR then
      { o₁ with
        modulatorSignal :=
          some (Function.update (o₁.modulatorSignal.getD (fun _ => 0)) i
            (level * o₁.modulatorLevel)) }
    else o₁
  (level * o.volume * env.1, o₂)

/-- The per-sample buffer write of `fillAudioBuffer` at index `i`: channel 0
is overwritten, accumulated, or mixed down per the fill mode; in MIX mode
channel 1, when present, is set to the just-written channel-0 sample. -/
def fillSample (fillMode : FillMode) (mixDivisor : ℚ) (audioLevel : ℚ) (i : ℕ)
    (b : StereoBuffer) : StereoBuffer :=
  match fillMode with
  | FillMode.CLOBBER => { b with right := Function.update b.right i audioLevel }
  | FillMode.ADD =>
      { b with right := Function.update b.right i (b.right i + audioLevel) }
  | FillMode.MIX =>
      let r := Function.update b.right i ((b.right i + audioLevel) / mixDivisor)
      match b.left with
      | none => { b with right := r }
      | some l => { right := r, left := some (Function.update l i (r i)) }

/-- The `fillAudioBuffer` loop over sample indices `0, …, n-1`. -/
def fillLoop (targetFrequency pitchBend : ℚ) (modulatorSignal : Option (ℕ → ℚ))
    (fillMode : FillMode) (mixDivisor : ℚ) :
    ℕ → Oscillator × StereoBuffer → Oscillator × StereoBuffer
  | 0, ob => ob
  | n + 1, ob =>
      let prev := fillLoop targetFrequency pitchBend modulatorSignal fillMode
        mixDivisor n ob
      let step := oscStep targetFrequency pitchBend modulatorSignal n prev.1
      (step.2, fillSample fillMode mixDivisor step.1 n prev.2)

/-- The pre-loop allocation in `fillAudioBuffer`: a modulator oscillator with
no modulator-signal buffer yet gets a zero-filled one. -/
def modAlloc (o : Oscillator) : Oscillator :=
  if o.IS_MODULATOR then
    match o.modulatorSignal with
    | none => { o with modulatorSignal := some (fun _ => 0) }
    | some _ => o
  else o

/-- `Oscillator.prototype.fillAudioBuffer`, with the pre-loop real-valued
frequency computation factored into the `targetFrequency` and `pitchBend`
parameters: allocate the modulator buffer if needed, then run the per-sample
loop over all `bufferLength` samples. -/
def fillAudioBuffer (bufferLength : ℕ) (targetFrequency pitchBend : ℚ)
    (modulatorSignal : Option (ℕ → ℚ)) (fillMode : FillMode) (mixDivisor : ℚ)
    (o : Oscillator) (b : StereoBuffer) : Oscillator × StereoBuffer :=
  fillLoop targetFrequency pitchBend modulatorSignal fillMode mixDivisor
    bufferLength (modAlloc o, b)

/-- The oscillator state after the first `n` samples of the fill loop. -/
def oscStates (targetFrequency pitchBend : ℚ)
    (modulatorSignal : Option (ℕ → ℚ)) (o : Oscillator) : ℕ → Oscillator
  | 0 => o
  | n + 1 =>
      (oscStep targetFrequency pitchBend modulatorSignal n
        (oscStates targetFrequency pitchBend modulatorSignal o n)).2

/-- The audio level generated at sample index `n` of the fill loop. -/
def audioLevelAt (targetFrequency pitchBend : ℚ)
    (modulatorSignal : Option (ℕ → ℚ)) (o : Oscillator) (n : ℕ) : ℚ :=
  (oscStep targetFrequency pitchBend modulatorSignal n
    (oscStates targetFrequency pitchBend modulatorSignal o n)).1

/-- How one generated sample combines with the existing channel-0 sample, per
fill mode (the three write formulas of `fillSample`). -/
def fillCombine (fillMode : FillMode) (mixDivisor : ℚ) (old lvl : ℚ) : ℚ :=
  match fillMode with
  | FillMode.CLOBBER => lvl
  | FillMode.ADD => old + lvl
  | FillMode.MIX => (old + lvl) / mixDivisor

/-- `Oscillator.BASE_FREQUENCY_`: 55 Hz, a low A. -/
noncomputable def BASE_FREQUENCY : ℝ := 55

/-- `Oscillator.NOTE_OFFSET_`: the chromatic distance between keyboard notes
and low A, `-4` semitones. -/
def NOTE_OFFSET : ℤ := -4

/-- `Oscillator.prototype.getInstantaneousFrequency_`: keyboard-pitch-tracking
off forces the note to 0; the frequency is
`BASE_FREQUENCY * range * 2 ^ ((note + NOTE_OFFSET) / 12)`.  Modelled over `ℝ`
because `Math.pow` with a fractional exponent is real-valued. -/
noncomputable def getInstantaneousFrequency (range : ℝ)
    (isAcceptingKeyboardPitch : Bool) (note : ℤ) : ℝ :=
  let n : ℤ := if isAcceptingKeyboardPitch then note else 0
  BASE_FREQUENCY * range * (2:ℝ) ^ ((((n : ℝ) + (NOTE_OFFSET : ℝ)) / 12) : ℝ)

/-- `Oscillator.prototype.getPitchBend_`: the frequency ratio applied on top
of the base pitch; the scale is a major sixth (`5/3`) with keyboard tracking
on, three octaves (`8`) otherwise. -/
def getPitchBend (pitchBend : ℚ) (isAcceptingKeyboardPitch : Bool) : ℚ :=
  let pitchBendScale : ℚ := if isAcceptingKeyboardPitch then 5/3 else 8
  let normalizedPitchBend := |pitchBend * (pitchBendScale - 1)| + 1
  if pitchBend ≥ 0 then normalizedPitchBend else 1 / normalizedPitchBend

end Moog

namespace Moog

/-! ### Helper lemmas about the envelope generator -/

theorem recomputePhaseSteps_phase (e : EnvelopeGenerator) :
    (recomputePhaseSteps e).phase = e.phase := by
  simp only [recomputePhaseSteps]
  split <;> split <;> rfl

theorem recomputePhaseSteps_amplitude (e : EnvelopeGenerator) :
    (recomputePhaseSteps e).amplitudeCoefficient = e.amplitudeCoefficient := by
  simp only [recomputePhaseSteps]
  split <;> split <;> rfl

theorem recomputePhaseSteps_sustainLevel (e : EnvelopeGenerator) :
    (recomputePhaseSteps e).sustainLevel = e.sustainLevel := by
  simp only [recomputePhaseSteps]
  split <;> split <;> rfl

theorem recomputePhaseSteps_decayTime (e : EnvelopeGenerator) :
    (recomputePhaseSteps e).decayTime = e.decayTime := by
  simp only [recomputePhaseSteps]
  split <;> split <;> rfl

theorem recomputePhaseSteps_SAMPLE_INTERVAL (e : EnvelopeGenerator) :
    (recomputePhaseSteps e).SAMPLE_INTERVAL = e.SAMPLE_INTERVAL := by
  simp only [recomputePhaseSteps]
  split <;> split <;> rfl

theorem recomputePhaseSteps_attackTime (e : EnvelopeGenerator) :
    (recomputePhaseSteps e).attackTime = e.attackTime := by
  simp only [recomputePhaseSteps]
  split <;> split <;> rfl

theorem recomputePhaseSteps_attackStep (e : EnvelopeGenerator) :
    (recomputePhaseSteps e).attackStep =
      if e.attackTime ≤ 0 then 1 else e.SAMPLE_INTERVAL / e.attackTime := by
  by_cases ha : e.attackTime ≤ 0 <;> by_cases hd : e.decayTime ≤ 0 <;>
    simp [recomputePhaseSteps, ha, hd]

theorem recomputePhaseSteps_decayStep (e : EnvelopeGenerator) :
    (recomputePhaseSteps e).decayStep =
      if e.decayTime ≤ 0 then 1
      else (1 - e.sustainLevel) * e.SAMPLE_INTERVAL / e.decayTime := by
  by_cases ha : e.attackTime ≤ 0 <;> by_cases hd : e.decayTime ≤ 0 <;>
    simp [recomputePhaseSteps, ha, hd]

theorem recomputePhaseSteps_releaseStep (e : EnvelopeGenerator) :
    (recomputePhaseSteps e).releaseStep =
      if e.decayTime ≤ 0 then 1
      else e.sustainLevel * e.SAMPLE_INTERVAL / e.decayTime := by
  by_cases ha : e.attackTime ≤ 0 <;> by_cases hd : e.decayTime ≤ 0 <;>
    simp [recomputePhaseSteps, ha, hd]

theorem startRelease_phase (e : EnvelopeGenerator) :
    (startRelease e).phase = Phase.RELEASE := by
  simp only [startRelease]
  split
  · assumption
  · rfl

theorem startRelease_of_release (e : EnvelopeGenerator)
    (h : e.phase = Phase.RELEASE) : startRelease e = e := by
  simp [startRelease, h]

theorem envStep_releaseStep (e : EnvelopeGenerator) :
    (envStep e).releaseStep = e.releaseStep := by
  cases hp : e.phase <;>
    simp only [envStep, getNextAmplitudeCoefficient, hp] <;>
    first
      | rfl
      | (split <;> rfl)

/-! ### Claim C5 -/

/-- Claim C5: calling `startRelease` twice in direct succession leaves the
envelope in exactly the same state as calling it once, so the subsequent
amplitude trajectory under `getNextAmplitudeCoefficient` is identical; the
second call is a no-op because the phase is already RELEASE. -/
theorem startRelease_idempotent (e : EnvelopeGenerator) :
    startRelease (startRelease e) = startRelease e ∧
    ∀ n, envIter (startRelease (startRelease e)) n = envIter (startRelease e) n := by
  have h := startRelease_of_release (startRelease e) (startRelease_phase e)
  exact ⟨h, fun n => by rw [h]⟩

/-! ### Claim C2 -/

/-- Claim C2 counterexample: put a concrete envelope in RELEASE via
`startRelease` (release step `1/4`, computed from amplitude `1`), then call
`setDecayTime 8` while still in RELEASE.  The release step is recomputed to
`1/16 = sustainLevel * sampleInterval / newDecayTime`, and the next sample
subtracts `1/16`, not the release-start step `1/4` — refuting the claim that
the release step is never recomputed mid-release when decayTime changes. -/
theorem release_step_setter_cex :
    (startRelease (envStep (startAttack (mkEnvelopeGenerator 1 1 4 (1/2))))).phase
        = Phase.RELEASE ∧
    (startRelease (envStep (startAttack (mkEnvelopeGenerator 1 1 4 (1/2))))).releaseStep
        = 1/4 ∧
    (setDecayTime
        (startRelease (envStep (startAttack (mkEnvelopeGenerator 1 1 4 (1/2))))) 8).phase
        = Phase.RELEASE ∧
    (setDecayTime
        (startRelease (envStep (startAttack (mkEnvelopeGenerator 1 1 4 (1/2))))) 8).releaseStep
        = 1/16 ∧
    (getNextAmplitudeCoefficient (setDecayTime
        (startRelease (envStep (startAttack (mkEnvelopeGenerator 1 1 4 (1/2))))) 8)).1
        = 1 - 1/16 ∧
    (1 - 1/16 : ℚ) ≠ 1 - 1/4 := by
  norm_num [startRelease, envStep, startAttack, mkEnvelopeGenerator, setDecayTime,
    recomputePhaseSteps, getNextAmplitudeCoefficient,
    show Phase.DECAY ≠ Phase.RELEASE by decide]

/-- Claim C2 (amended): `getNextAmplitudeCoefficient` never recomputes the
release step — every sampling call during RELEASE subtracts the stored
`releaseStep`, which `startRelease` set from the amplitude at release start —
but a `setDecayTime` call while the phase is RELEASE does overwrite
`releaseStep` with `sustainLevel * sampleInterval / newDecayTime` (or `1` for a
non-positive decay time), leaving the phase unchanged. -/
theorem release_step_sampling_vs_setter (e : EnvelopeGenerator) (t : ℚ) :
    (envStep e).releaseStep = e.releaseStep ∧
    (startRelease e).releaseStep =
      (if e.phase = Phase.RELEASE then e.releaseStep
       else if e.decayTime ≤ 0 then 1
       else e.amplitudeCoefficient * e.SAMPLE_INTERVAL / e.decayTime) ∧
    (setDecayTime e t).releaseStep =
      (if t ≤ 0 then 1 else e.sustainLevel * e.SAMPLE_INTERVAL / t) ∧
    (setDecayTime e t).phase = e.phase := by
  refine ⟨envStep_releaseStep e, ?_, ?_, ?_⟩
  · by_cases hp : e.phase = Phase.RELEASE
    · simp [startRelease, hp]
    · by_cases hd : e.decayTime ≤ 0 <;> simp [startRelease, hp, hd]
  · by_cases hd : t ≤ 0 <;> by_cases ha : e.attackTime ≤ 0 <;>
      simp [setDecayTime, recomputePhaseSteps, hd, ha]
  · simp only [setDecayTime, recomputePhaseSteps_phase]

/-! ### Claim C6 -/

/-- Claim C6: with `attackTime ≤ 0` the attack step is set explicitly to `1`
and the amplitude reaches `1` (entering DECAY) on the very next sample after
`startAttack`; with `decayTime ≤ 0` both the decay and release steps are set
explicitly to `1`, the decay phase completes in a single sample, and the
release phase completes in a single sample.  The divisions by `attackTime` and
`decayTime` occur only on the branches where those divisors are positive. -/
theorem zero_time_instant_steps (e : EnvelopeGenerator) :
    (e.attackTime ≤ 0 →
      (startAttack e).attackStep = 1 ∧
      (getNextAmplitudeCoefficient (startAttack e)).1 = 1 ∧
      (envStep (startAttack e)).phase = Phase.DECAY) ∧
    (e.decayTime ≤ 0 →
      (recomputePhaseSteps e).decayStep = 1 ∧
      (recomputePhaseSteps e).releaseStep = 1 ∧
      (e.phase = Phase.DECAY → e.amplitudeCoefficient ≤ 1 → 0 ≤ e.sustainLevel →
        (envStep (recomputePhaseSteps e)).phase = Phase.SUSTAIN ∧
        (envStep (recomputePhaseSteps e)).amplitudeCoefficient = e.sustainLevel)) ∧
    (e.decayTime ≤ 0 → e.phase ≠ Phase.RELEASE → e.amplitudeCoefficient ≤ 1 →
      (startRelease e).releaseStep = 1 ∧
      (envStep (startRelease e)).phase = Phase.INACTIVE ∧
      (envStep (startRelease e)).amplitudeCoefficient = 0) := by
  refine ⟨fun ha => ?_, fun hd => ?_, fun hd hp hamp => ?_⟩
  · have h1 : (startAttack e).attackStep = 1 := by
      simp only [startAttack, recomputePhaseSteps]
      rw [if_pos ha]
      split <;> rfl
    have h2 : (startAttack e).amplitudeCoefficient = 0 := rfl
    have h3 : (startAttack e).phase = Phase.ATTACK := rfl
    refine ⟨h1, ?_, ?_⟩ <;>
      simp [envStep, getNextAmplitudeCoefficient, h1, h2, h3]
  · have hds : (recomputePhaseSteps e).decayStep = 1 := by
      simp only [recomputePhaseSteps]
      split <;> simp_all
    have hrs : (recomputePhaseSteps e).releaseStep = 1 := by
      simp only [recomputePhaseSteps]
      split <;> simp_all
    refine ⟨hds, hrs, fun hph hamp hsus => ?_⟩
    have hp' : (recomputePhaseSteps e).phase = Phase.DECAY :=
      (recomputePhaseSteps_phase e).trans hph
    have ha' : (recomputePhaseSteps e).amplitudeCoefficient = e.amplitudeCoefficient :=
      recomputePhaseSteps_amplitude e
    have hs' : (recomputePhaseSteps e).sustainLevel = e.sustainLevel :=
      recomputePhaseSteps_sustainLevel e
    constructor <;>
      · simp only [envStep, getNextAmplitudeCoefficient, hp', hds, ha', hs']
        rw [if_pos (by linarith)]
  · have h1 : (startRelease e).releaseStep = 1 := by
      simp only [startRelease]
      rw [if_neg hp, if_pos hd]
    have h2 : (startRelease e).amplitudeCoefficient = e.amplitudeCoefficient := by
      simp only [startRelease]
      rw [if_neg hp, if_pos hd]
    have h3 := startRelease_phase e
    refine ⟨h1, ?_, ?_⟩ <;>
      · simp only [envStep, getNextAmplitudeCoefficient, h1, h2, h3]
        rw [if_pos (by linarith)]

/-- Claim C6 witness: a concrete envelope with zero attack and decay times, in
phase DECAY with amplitude `1/2` and sustain level `1/4`, exercising the
instant-attack and instant-release conclusions of `zero_time_instant_steps`. -/
theorem zero_time_instant_steps_witness :
    ((startAttack
        (⟨1, 1/2, Phase.DECAY, 0, 1, 0, 1, 1/4, 1⟩ : EnvelopeGenerator)).attackStep = 1 ∧
      (getNextAmplitudeCoefficient (startAttack
        (⟨1, 1/2, Phase.DECAY, 0, 1, 0, 1, 1/4, 1⟩ : EnvelopeGenerator))).1 = 1 ∧
      (envStep (startAttack
        (⟨1, 1/2, Phase.DECAY, 0, 1, 0, 1, 1/4, 1⟩ : EnvelopeGenerator))).phase
        = Phase.DECAY) ∧
    ((startRelease
        (⟨1, 1/2, Phase.DECAY, 0, 1, 0, 1, 1/4, 1⟩ : EnvelopeGenerator)).releaseStep = 1 ∧
      (envStep (startRelease
        (⟨1, 1/2, Phase.DECAY, 0, 1, 0, 1, 1/4, 1⟩ : EnvelopeGenerator))).phase
        = Phase.INACTIVE ∧
      (envStep (startRelease
        (⟨1, 1/2, Phase.DECAY, 0, 1, 0, 1, 1/4, 1⟩ : EnvelopeGenerator))).amplitudeCoefficient
        = 0) :=
  ⟨(zero_time_instant_steps _).1 (by norm_num),
   (zero_time_instant_steps _).2.2 (by norm_num) (by simp) (by norm_num)⟩

/-! ### Claim C1 -/

theorem envIter_succ (e : EnvelopeGenerator) (n : ℕ) :
    envIter e (n + 1) = envStep (envIter e n) :=
  Function.iterate_succ_apply' envStep n e

theorem c1Inv_init (si aT dT sL : ℚ) (haT : 0 < aT) (hdT : 0 < dT) :
    C1Inv si aT dT sL (startAttack (mkEnvelopeGenerator si aT dT sL)) := by
  have ha' : ¬(aT ≤ 0) := not_le.mpr haT
  have hd' : ¬(dT ≤ 0) := not_le.mpr hdT
  refine ⟨?_, ?_, ?_, ?_, ?_, ?_, Or.inl rfl,
    fun _ => ⟨le_refl 0, show (0:ℚ) < 1 by norm_num⟩,
    fun hx => Phase.noConfusion hx, fun hx => Phase.noConfusion hx⟩ <;>
    simp [startAttack, mkEnvelopeGenerator, recomputePhaseSteps, ha', hd']

theorem c1_step (si aT dT sL : ℚ) (hsi : 0 ≤ si) (haT : 0 < aT) (hdT : 0 < dT)
    (hsL0 : 0 ≤ sL) (hsL1 : sL ≤ 1) (e : EnvelopeGenerator)
    (h : C1Inv si aT dT sL e) :
    C1Inv si aT dT sL (envStep e) ∧
    (e.phase = Phase.ATTACK →
      e.amplitudeCoefficient ≤ (envStep e).amplitudeCoefficient) ∧
    (e.phase = Phase.ATTACK → (envStep e).phase = Phase.DECAY →
      (envStep e).amplitudeCoefficient = 1) ∧
    (e.phase = Phase.DECAY →
      (envStep e).amplitudeCoefficient ≤ e.amplitudeCoefficient ∧
      sL ≤ (envStep e).amplitudeCoefficient) ∧
    (e.phase = Phase.DECAY → (envStep e).phase = Phase.SUSTAIN →
      (envStep e).amplitudeCoefficient = sL) ∧
    (e.phase = Phase.SUSTAIN → (envStep e).phase = Phase.SUSTAIN ∧
      (envStep e).amplitudeCoefficient = sL) := by
  have hstepA : 0 ≤ si / aT := div_nonneg hsi haT.le
  have hstepD : 0 ≤ (1 - sL) * si / dT :=
    div_nonneg (mul_nonneg (by linarith) hsi) hdT.le
  obtain ⟨hSI, hAT, hDT, hSL, hAS, hDS, hph, hA, hD, hS⟩ := h
  rcases hph with hp | hp | hp
  · obtain ⟨ha0, ha1⟩ := hA hp
    simp only [envStep, getNextAmplitudeCoefficient, hp]
    by_cases hc : 1 ≤ e.amplitudeCoefficient + e.attackStep
    · rw [if_pos hc]
      refine ⟨⟨hSI, hAT, hDT, hSL, hAS, hDS, Or.inr (Or.inl rfl),
        fun hx => Phase.noConfusion hx,
        fun _ => ⟨hsL1, le_refl 1⟩,
        fun hx => Phase.noConfusion hx⟩,
        fun _ => ha1.le, fun _ _ => rfl,
        fun hx => Phase.noConfusion hx,
        fun hx => Phase.noConfusion hx,
        fun hx => Phase.noConfusion hx⟩
    · rw [if_neg hc]
      have has : 0 ≤ e.attackStep := hAS ▸ hstepA
      have hlt := not_le.mp hc
      refine ⟨⟨hSI, hAT, hDT, hSL, hAS, hDS, Or.inl rfl,
        fun _ => ⟨show (0:ℚ) ≤ e.amplitudeCoefficient + e.attackStep by linarith,
          show e.amplitudeCoefficient + e.attackStep < 1 from hlt⟩,
        fun hx => Phase.noConfusion hx,
        fun hx => Phase.noConfusion hx⟩,
        fun _ => show e.amplitudeCoefficient ≤ e.amplitudeCoefficient + e.attackStep by
          linarith,
        fun _ hx => Phase.noConfusion hx,
        fun hx => Phase.noConfusion hx,
        fun hx => Phase.noConfusion hx,
        fun hx => Phase.noConfusion hx⟩
  · obtain ⟨hd0, hd1⟩ := hD hp
    simp only [envStep, getNextAmplitudeCoefficient, hp]
    by_cases hc : e.amplitudeCoefficient - e.decayStep ≤ e.sustainLevel
    · rw [if_pos hc]
      refine ⟨⟨hSI, hAT, hDT, hSL, hAS, hDS, Or.inr (Or.inr rfl),
        fun hx => Phase.noConfusion hx,
        fun hx => Phase.noConfusion hx,
        fun _ => hSL⟩,
        fun hx => Phase.noConfusion hx,
        fun hx => Phase.noConfusion hx,
        fun _ => ⟨show e.sustainLevel ≤ e.amplitudeCoefficient by linarith,
          show sL ≤ e.sustainLevel by linarith⟩,
        fun _ _ => hSL,
        fun hx => Phase.noConfusion hx⟩
    · rw [if_neg hc]
      have hds : 0 ≤ e.decayStep := hDS ▸ hstepD
      have hlt := not_le.mp hc
      refine ⟨⟨hSI, hAT, hDT, hSL, hAS, hDS, Or.inr (Or.inl rfl),
        fun hx => Phase.noConfusion hx,
        fun _ => ⟨show sL ≤ e.amplitudeCoefficient - e.decayStep by linarith,
          show e.amplitudeCoefficient - e.decayStep ≤ 1 by linarith⟩,
        fun hx => Phase.noConfusion hx⟩,
        fun hx => Phase.noConfusion hx,
        fun hx => Phase.noConfusion hx,
        fun _ => ⟨show e.amplitudeCoefficient - e.decayStep ≤ e.amplitudeCoefficient by
            linarith,
          show sL ≤ e.amplitudeCoefficient - e.decayStep by linarith⟩,
        fun _ hx => Phase.noConfusion hx,
        fun hx => Phase.noConfusion hx⟩
  · have hamp := hS hp
    simp only [envStep, getNextAmplitudeCoefficient, hp]
    exact ⟨⟨hSI, hAT, hDT, hSL, hAS, hDS, Or.inr (Or.inr hp),
      fun hx => Phase.noConfusion (hp ▸ hx),
      fun hx => Phase.noConfusion (hp ▸ hx),
      fun _ => hamp⟩,
      fun hx => Phase.noConfusion hx,
      fun hx => Phase.noConfusion hx,
      fun hx => Phase.noConfusion hx,
      fun hx => Phase.noConfusion hx,
      fun _ => ⟨by trivial, hamp⟩⟩

theorem c1Inv_iter (si aT dT sL : ℚ) (hsi : 0 ≤ si) (haT : 0 < aT) (hdT : 0 < dT)
    (hsL0 : 0 ≤ sL) (hsL1 : sL ≤ 1) (n : ℕ) :
    C1Inv si aT dT sL (envIter (startAttack (mkEnvelopeGenerator si aT dT sL)) n) := by
  induction n with
  | zero => exact c1Inv_init si aT dT sL haT hdT
  | succ n ih =>
      rw [envIter_succ]
      exact (c1_step si aT dT sL hsi haT hdT hsL0 hsL1 _ ih).1

/-- Claim C1: for attackTime, decayTime and sampleInterval positive and
sustainLevel in `[0, 1]`, starting from the INACTIVE initial state and calling
`startAttack`, the sampled coefficient sequence is non-decreasing while the
phase is ATTACK, equals exactly `1` on the sample that enters DECAY, is
non-increasing and bounded below by sustainLevel during DECAY, equals
sustainLevel on the sample that enters SUSTAIN, and thereafter stays at
sustainLevel in SUSTAIN for every further call (no `startRelease` occurs in
this trace). -/
theorem envelope_adsd_trajectory (si aT dT sL : ℚ) (hsi : 0 < si) (haT : 0 < aT)
    (hdT : 0 < dT) (hsL0 : 0 ≤ sL) (hsL1 : sL ≤ 1) (n : ℕ) :
    ((envIter (startAttack (mkEnvelopeGenerator si aT dT sL)) n).phase = Phase.ATTACK →
      (envIter (startAttack (mkEnvelopeGenerator si aT dT sL)) n).amplitudeCoefficient ≤
        (envIter (startAttack (mkEnvelopeGenerator si aT dT sL)) (n + 1)).amplitudeCoefficient) ∧
    ((envIter (startAttack (mkEnvelopeGenerator si aT dT sL)) n).phase = Phase.ATTACK →
      (envIter (startAttack (mkEnvelopeGenerator si aT dT sL)) (n + 1)).phase = Phase.DECAY →
      (envIter (startAttack (mkEnvelopeGenerator si aT dT sL)) (n + 1)).amplitudeCoefficient = 1) ∧
    ((envIter (startAttack (mkEnvelopeGenerator si aT dT sL)) n).phase = Phase.DECAY →
      (envIter (startAttack (mkEnvelopeGenerator si aT dT sL)) (n + 1)).amplitudeCoefficient ≤
        (envIter (startAttack (mkEnvelopeGenerator si aT dT sL)) n).amplitudeCoefficient ∧
      sL ≤ (envIter (startAttack (mkEnvelopeGenerator si aT dT sL)) (n + 1)).amplitudeCoefficient) ∧
    ((envIter (startAttack (mkEnvelopeGenerator si aT dT sL)) n).phase = Phase.DECAY →
      (envIter (startAttack (mkEnvelopeGenerator si aT dT sL)) (n + 1)).phase = Phase.SUSTAIN →
      (envIter (startAttack (mkEnvelopeGenerator si aT dT sL)) (n + 1)).amplitudeCoefficient = sL) ∧
    ((envIter (startAttack (mkEnvelopeGenerator si aT dT sL)) n).phase = Phase.SUSTAIN →
      (envIter (startAttack (mkEnvelopeGenerator si aT dT sL)) (n + 1)).phase = Phase.SUSTAIN ∧
      (envIter (startAttack (mkEnvelopeGenerator si aT dT sL)) (n + 1)).amplitudeCoefficient = sL) := by
  have hinv := c1Inv_iter si aT dT sL hsi.le haT hdT hsL0 hsL1 n
  have hstep := c1_step si aT dT sL hsi.le haT hdT hsL0 hsL1 _ hinv
  rw [envIter_succ]
  exact ⟨hstep.2.1, hstep.2.2.1, hstep.2.2.2.1, hstep.2.2.2.2.1, hstep.2.2.2.2.2⟩

/-- Claim C1 witness: the envelope with sampleInterval 1, attackTime 2,
decayTime 2, sustainLevel `1/2` is still in ATTACK after one sample, and the
coefficient does not decrease on the next sample. -/
theorem envelope_adsd_trajectory_witness :
    (envIter (startAttack (mkEnvelopeGenerator 1 2 2 (1/2))) 1).amplitudeCoefficient ≤
      (envIter (startAttack (mkEnvelopeGenerator 1 2 2 (1/2))) 2).amplitudeCoefficient :=
  (envelope_adsd_trajectory 1 2 2 (1/2) (by norm_num) (by norm_num) (by norm_num)
      (by norm_num) (by norm_num) 1).1
    (by norm_num [envIter, envStep, getNextAmplitudeCoefficient, startAttack,
      mkEnvelopeGenerator, recomputePhaseSteps,
      Function.iterate_succ_apply, Function.iterate_zero_apply])

/-! ### Claim C4 -/

theorem c4Inv_recompute (e : EnvelopeGenerator) (h : C4Inv e) :
    C4Inv (recomputePhaseSteps e) := by
  obtain ⟨h1, h2, h3, h4, h5, _, _, _⟩ := h
  refine ⟨?_, ?_, ?_, ?_, ?_, ?_, ?_, ?_⟩
  · rw [recomputePhaseSteps_SAMPLE_INTERVAL]; exact h1
  · rw [recomputePhaseSteps_sustainLevel]; exact h2
  · rw [recomputePhaseSteps_sustainLevel]; exact h3
  · rw [recomputePhaseSteps_amplitude]; exact h4
  · rw [recomputePhaseSteps_amplitude]; exact h5
  · rw [recomputePhaseSteps_attackStep]
    split
    · norm_num
    · exact div_nonneg h1 (le_of_lt (by linarith [not_le.mp (by assumption)]))
  · rw [recomputePhaseSteps_decayStep]
    split
    · norm_num
    · exact div_nonneg (mul_nonneg (by linarith) h1)
        (le_of_lt (not_le.mp (by assumption)))
  · rw [recomputePhaseSteps_releaseStep]
    split
    · norm_num
    · exact div_nonneg (mul_nonneg h2 h1) (le_of_lt (not_le.mp (by assumption)))

theorem c4Inv_envStep (e : EnvelopeGenerator) (h : C4Inv e) : C4Inv (envStep e) := by
  obtain ⟨h1, h2, h3, h4, h5, h6, h7, h8⟩ := h
  cases hp : e.phase <;> simp only [envStep, getNextAmplitudeCoefficient, hp]
  · by_cases hc : 1 ≤ e.amplitudeCoefficient + e.attackStep
    · rw [if_pos hc]
      exact ⟨h1, h2, h3, by norm_num, le_refl 1, h6, h7, h8⟩
    · rw [if_neg hc]
      refine ⟨h1, h2, h3,
        show (0:ℚ) ≤ e.amplitudeCoefficient + e.attackStep by linarith,
        show e.amplitudeCoefficient + e.attackStep ≤ 1 by linarith [not_le.mp hc],
        h6, h7, h8⟩
  · by_cases hc : e.amplitudeCoefficient - e.decayStep ≤ e.sustainLevel
    · rw [if_pos hc]
      exact ⟨h1, h2, h3, h2, h3, h6, h7, h8⟩
    · rw [if_neg hc]
      refine ⟨h1, h2, h3,
        show (0:ℚ) ≤ e.amplitudeCoefficient - e.decayStep by linarith [not_le.mp hc],
        show e.amplitudeCoefficient - e.decayStep ≤ 1 by linarith,
        h6, h7, h8⟩
  · exact ⟨h1, h2, h3, h4, h5, h6, h7, h8⟩
  · by_cases hc : e.amplitudeCoefficient - e.releaseStep ≤ 0
    · rw [if_pos hc]
      exact ⟨h1, h2, h3, le_refl 0, by norm_num, h6, h7, h8⟩
    · rw [if_neg hc]
      refine ⟨h1, h2, h3,
        show (0:ℚ) ≤ e.amplitudeCoefficient - e.releaseStep by linarith [not_le.mp hc],
        show e.amplitudeCoefficient - e.releaseStep ≤ 1 by linarith,
        h6, h7, h8⟩
  · exact ⟨h1, h2, h3, h4, h5, h6, h7, h8⟩

theorem c4Inv_startAttack (e : EnvelopeGenerator) (h : C4Inv e) :
    C4Inv (startAttack e) := by
  obtain ⟨h1, h2, h3, _, _, h6, h7, h8⟩ := c4Inv_recompute e h
  exact ⟨h1, h2, h3, le_refl 0, show (0:ℚ) ≤ 1 by norm_num, h6, h7, h8⟩

theorem c4Inv_startRelease (e : EnvelopeGenerator) (h : C4Inv e) :
    C4Inv (startRelease e) := by
  by_cases hp : e.phase = Phase.RELEASE
  · rw [startRelease_of_release e hp]; exact h
  · obtain ⟨h1, h2, h3, h4, h5, h6, h7, h8⟩ := h
    simp only [startRelease]
    rw [if_neg hp]
    by_cases hd : e.decayTime ≤ 0
    · rw [if_pos hd]
      exact ⟨h1, h2, h3, h4, h5, h6, h7, by norm_num⟩
    · rw [if_neg hd]
      exact ⟨h1, h2, h3, h4, h5, h6, h7,
        div_nonneg (mul_nonneg h4 h1) (le_of_lt (not_le.mp hd))⟩

theorem c4Inv_applyOp (e : EnvelopeGenerator) (op : EnvOp) (h : C4Inv e)
    (hv : ValidEnvOp op) : C4Inv (applyEnvOp e op) := by
  obtain ⟨h1, h2, h3, h4, h5, h6, h7, h8⟩ := h
  cases op with
  | opStartAttack =>
      exact c4Inv_startAttack e ⟨h1, h2, h3, h4, h5, h6, h7, h8⟩
  | opStartRelease =>
      exact c4Inv_startRelease e ⟨h1, h2, h3, h4, h5, h6, h7, h8⟩
  | opSample =>
      exact c4Inv_envStep e ⟨h1, h2, h3, h4, h5, h6, h7, h8⟩
  | opSetAttackTime t =>
      exact c4Inv_recompute { e with attackTime := t }
        ⟨h1, h2, h3, h4, h5, h6, h7, h8⟩
  | opSetDecayTime t =>
      exact c4Inv_recompute { e with decayTime := t }
        ⟨h1, h2, h3, h4, h5, h6, h7, h8⟩
  | opSetSustainLevel l =>
      exact c4Inv_recompute { e with sustainLevel := l }
        ⟨h1, hv.1, hv.2, h4, h5, h6, h7, h8⟩

theorem c4Inv_applyOps (ops : List EnvOp) (e : EnvelopeGenerator) (h : C4Inv e)
    (hv : ∀ op ∈ ops, ValidEnvOp op) : C4Inv (applyEnvOps e ops) := by
  induction ops generalizing e with
  | nil => exact h
  | cons op ops ih =>
      simp only [applyEnvOps, List.foldl_cons]
      exact ih (applyEnvOp e op)
        (c4Inv_applyOp e op h (hv op (List.mem_cons_self op ops)))
        (fun o ho => hv o (List.mem_cons_of_mem op ho))

/-- Claim C4: for every envelope whose sample interval is nonnegative and
whose sustain level — at construction and in every `setSustainLevel` in the
operation sequence — lies in `[0, 1]`, the amplitude coefficient is in
`[0, 1]` initially and stays in `[0, 1]` after any sequence of `startAttack`,
`startRelease`, `getNextAmplitudeCoefficient` and setter calls. -/
theorem amplitude_in_unit_interval (si aT dT sL : ℚ) (ops : List EnvOp)
    (hsi : 0 ≤ si) (h0 : 0 ≤ sL) (h1 : sL ≤ 1)
    (hv : ∀ op ∈ ops, ValidEnvOp op) :
    (0 ≤ (mkEnvelopeGenerator si aT dT sL).amplitudeCoefficient ∧
      (mkEnvelopeGenerator si aT dT sL).amplitudeCoefficient ≤ 1) ∧
    (0 ≤ (applyEnvOps (mkEnvelopeGenerator si aT dT sL) ops).amplitudeCoefficient ∧
      (applyEnvOps (mkEnvelopeGenerator si aT dT sL) ops).amplitudeCoefficient ≤ 1) := by
  have hmk : C4Inv (mkEnvelopeGenerator si aT dT sL) :=
    c4Inv_recompute _
      ⟨hsi, h0, h1, le_refl 0, by norm_num, le_refl 0, le_refl 0, le_refl 0⟩
  have hfin := c4Inv_applyOps ops _ hmk hv
  exact ⟨⟨hmk.2.2.2.1, hmk.2.2.2.2.1⟩, ⟨hfin.2.2.2.1, hfin.2.2.2.2.1⟩⟩

/-- Claim C4 witness: a concrete run — attack, two samples, lower the sustain
level, release, sample — keeps the amplitude coefficient within `[0, 1]`. -/
theorem amplitude_in_unit_interval_witness :
    (0 ≤ (mkEnvelopeGenerator 1 2 2 (1/2)).amplitudeCoefficient ∧
      (mkEnvelopeGenerator 1 2 2 (1/2)).amplitudeCoefficient ≤ 1) ∧
    (0 ≤ (applyEnvOps (mkEnvelopeGenerator 1 2 2 (1/2))
        [EnvOp.opStartAttack, EnvOp.opSample, EnvOp.opSample,
         EnvOp.opSetSustainLevel (1/3), EnvOp.opStartRelease,
         EnvOp.opSample]).amplitudeCoefficient ∧
      (applyEnvOps (mkEnvelopeGenerator 1 2 2 (1/2))
        [EnvOp.opStartAttack, EnvOp.opSample, EnvOp.opSample,
         EnvOp.opSetSustainLevel (1/3), EnvOp.opStartRelease,
         EnvOp.opSample]).amplitudeCoefficient ≤ 1) :=
  amplitude_in_unit_interval 1 2 2 (1/2)
    [EnvOp.opStartAttack, EnvOp.opSample, EnvOp.opSample,
     EnvOp.opSetSustainLevel (1/3), EnvOp.opStartRelease, EnvOp.opSample]
    (by norm_num) (by norm_num) (by norm_num)
    (by
      intro op hop
      fin_cases hop <;> first | exact trivial | exact ⟨by norm_num, by norm_num⟩)

/-! ### Claim C7 -/

/-- Claim C7 counterexample: at frequency 1 (cycle length 2) and sample
interval `1/2`, starting from phase 0, the phase accumulator after four
advances equals the full cycle length (not strictly less), and the fifth call
reports a cycle progress of exactly `1`, outside `[0, 1)` — refuting the claim
that the accumulator is wrapped modulo the cycle length and that progress
always lies in `[0, 1)`. -/
theorem phase_wrap_cex :
    phaseRun (1/2) 1 0 4 = 2 ∧
    ¬(phaseRun (1/2) 1 0 4 < 2 / 1) ∧
    (advancedPhase (phaseRun (1/2) 1 0 4) (1/2) 1).1 = 1 ∧
    ¬((advancedPhase (phaseRun (1/2) 1 0 4) (1/2) 1).1 < 1) := by
  norm_num [phaseRun, advancedPhase,
    Function.iterate_succ_apply, Function.iterate_zero_apply]

/-- Claim C7 (amended): `advancedPhase_` wraps by subtracting a single cycle
length, only when the accumulated phase strictly exceeds the cycle length, and
before the per-sample increment.  At a positive frequency with sample interval
at most one cycle length, a phase accumulator in
`[0, cycleLength + sampleInterval]` yields a cycle progress in the closed
interval `[0, 1]` (the endpoint `1` is attainable, so `[0, 1)` fails) and a
new accumulator again in `[0, cycleLength + sampleInterval]`. -/
theorem phase_wrap_bounds (si f p : ℚ) (hf : 0 < f) (hsi : 0 ≤ si)
    (hsic : si ≤ 2 / f) (hp0 : 0 ≤ p) (hpc : p ≤ 2 / f + si) :
    0 ≤ (advancedPhase p si f).1 ∧ (advancedPhase p si f).1 ≤ 1 ∧
    0 ≤ (advancedPhase p si f).2 ∧ (advancedPhase p si f).2 ≤ 2 / f + si := by
  have hcl : 0 < 2 / f := by positivity
  have hmul : 2 / f * f = 2 := div_mul_cancel₀ 2 hf.ne'
  simp only [advancedPhase]
  by_cases hc : 2 / f < p
  · rw [if_pos hc]
    have h2 : p - 2 / f ≤ 2 / f := by linarith
    have h3 : (p - 2 / f) * f ≤ 2 / f * f :=
      mul_le_mul_of_nonneg_right h2 hf.le
    refine ⟨div_nonneg (mul_nonneg (by linarith) hf.le) (by norm_num), ?_,
      by linarith, by linarith⟩
    rw [div_le_one (by norm_num : (0:ℚ) < 2)]
    linarith
  · rw [if_neg hc]
    have hple := not_lt.mp hc
    have h3 : p * f ≤ 2 / f * f := mul_le_mul_of_nonneg_right hple hf.le
    refine ⟨div_nonneg (mul_nonneg hp0 hf.le) (by norm_num), ?_,
      by linarith, by linarith⟩
    rw [div_le_one (by norm_num : (0:ℚ) < 2)]
    linarith

/-- Claim C7 witness: phase `9/4`, sample interval `1/2`, frequency `1`
satisfy the hypotheses, with progress and new phase inside the stated
bounds. -/
theorem phase_wrap_bounds_witness :
    0 ≤ (advancedPhase (9/4) (1/2) 1).1 ∧ (advancedPhase (9/4) (1/2) 1).1 ≤ 1 ∧
    0 ≤ (advancedPhase (9/4) (1/2) 1).2 ∧
    (advancedPhase (9/4) (1/2) 1).2 ≤ 2 / 1 + 1/2 :=
  phase_wrap_bounds (1/2) 1 (9/4) (by norm_num) (by norm_num) (by norm_num)
    (by norm_num) (by norm_num)

/-! ### Claim C8 -/

theorem glideIter_succ (t : ℚ) (s : GlideState) (n : ℕ) :
    glideIter t s (n + 1) = (getGlideFrequency (glideIter t s n) t).2 :=
  Function.iterate_succ_apply' _ n s

theorem glideOut_eq_next_cur (t : ℚ) (s : GlideState) (n : ℕ) :
    some (glideOut t s n) = (glideIter t s (n + 1)).currentGlidePitch := by
  rw [glideIter_succ]
  simp only [glideOut, getGlideFrequency]
  split <;> rfl

/-- Claim C8 counterexample: glide is on with duration 10 s at sample interval
1 s (so ceil(D/T) = 10).  A previous glide from pitch 1000 down to 0 left
`glideDelta_ = -100`.  A new target 5 is then reached on the very first call —
`getGlideFrequency_` returns exactly 5 — because the snap test compares
against the stale delta before recomputing it, refuting the claim that the
target is reached after ceil(D/T) = 10 samples moving by
(target - current)/(D/T) = 1/2 per sample. -/
theorem glide_stale_delta_cex :
    (glideRunTargets ⟨true, 10, 1, none, none, none⟩
        [1000, 0, 0, 0, 0, 0, 0, 0, 0, 0, 0]).isGlideOn = true ∧
    (glideRunTargets ⟨true, 10, 1, none, none, none⟩
        [1000, 0, 0, 0, 0, 0, 0, 0, 0, 0, 0]).currentGlidePitch = some 0 ∧
    (glideRunTargets ⟨true, 10, 1, none, none, none⟩
        [1000, 0, 0, 0, 0, 0, 0, 0, 0, 0, 0]).glideDelta = some (-100) ∧
    (getGlideFrequency (glideRunTargets ⟨true, 10, 1, none, none, none⟩
        [1000, 0, 0, 0, 0, 0, 0, 0, 0, 0, 0]) 5).1 = 5 ∧
    (5:ℚ) ≠ 0 ∧ ⌈(10:ℚ) / 1⌉ ≠ 1 := by
  norm_num [glideRunTargets, getGlideFrequency, jsOptNe, bne_iff_ne,
    Option.some_ne_none]

theorem glide_run_char (s : GlideState) (t c₀ : ℚ)
    (hOn : s.isGlideOn = true) (hcur : s.currentGlidePitch = some c₀)
    (hD : 0 < s.glideDuration) (hT : 0 < s.SAMPLE_INTERVAL)
    (hstale : |s.glideDelta.getD 0| < |c₀ - t|)
    (htgt : jsOptNe s.targetGlidePitch t = true) :
    ∀ k : ℕ, 1 ≤ k → (k : ℚ) ≤ s.glideDuration / s.SAMPLE_INTERVAL →
      glideIter t s k =
        { s with
          glideDelta :=
            some ((t - c₀) / (s.glideDuration / s.SAMPLE_INTERVAL)),
          currentGlidePitch :=
            some (c₀ + (k : ℚ) *
              ((t - c₀) / (s.glideDuration / s.SAMPLE_INTERVAL))),
          targetGlidePitch := some t } := by
  have hN0 : 0 < s.glideDuration / s.SAMPLE_INTERVAL := div_pos hD hT
  have hct : c₀ - t ≠ 0 := by
    intro hh
    rw [hh, abs_zero] at hstale
    exact absurd hstale (not_lt.mpr (abs_nonneg _))
  have htc : t - c₀ ≠ 0 := fun hh => hct (by linarith)
  set N := s.glideDuration / s.SAMPLE_INTERVAL with hNdef
  set d := (t - c₀) / N with hddef
  have hd0 : d ≠ 0 := div_ne_zero htc hN0.ne'
  have habs : 0 < |d| := abs_pos.mpr hd0
  have hNd : N * d = t - c₀ := by
    rw [hddef]
    field_simp
  intro k
  induction k with
  | zero => intro h1 _; exact absurd h1 (by norm_num)
  | succ k ih =>
    intro _ hkN
    by_cases hk0 : k = 0
    · subst hk0
      rw [glideIter_succ]
      rw [show glideIter t s 0 = s from rfl]
      simp only [getGlideFrequency]
      rw [if_neg (by
        push_neg
        exact ⟨hOn, by simp [hcur], hD, by simpa [hcur] using hstale⟩)]
      rw [if_pos htgt]
      simp [hcur, GlideState.mk.injEq, ← hNdef, ← hddef]
    · have hk1 : 1 ≤ k := Nat.one_le_iff_ne_zero.mpr hk0
      have hkN1 : (k:ℚ) + 1 ≤ N := by push_cast at hkN; linarith
      have hkN' : (k:ℚ) ≤ N := by linarith
      have hprev := ih hk1 hkN'
      rw [glideIter_succ, hprev]
      have hkey : c₀ + (k:ℚ) * d - t = d * ((k:ℚ) - N) := by
        linear_combination hNd
      have habs2 : |c₀ + (k:ℚ) * d - t| = |d| * (N - k) := by
        rw [hkey, abs_mul, abs_of_nonpos (show (k:ℚ) - N ≤ 0 by linarith)]
        ring
      simp only [getGlideFrequency]
      by_cases hsnap : N ≤ (k:ℚ) + 1
      · have hNeq : N = (k:ℚ) + 1 := le_antisymm hsnap hkN1
        rw [if_pos (Or.inr (Or.inr (Or.inr (by
          show |c₀ + (k:ℚ) * d - t| ≤ |d|
          rw [habs2, hNeq]
          have h1 : (k:ℚ) + 1 - k = 1 := by ring
          rw [h1, mul_one]))))]
        simp only [Option.getD_some, GlideState.mk.injEq]
        refine ⟨trivial, trivial, trivial, trivial, ?_, trivial⟩
        congr 1
        have hNd' : ((k:ℚ) + 1) * d = t - c₀ := by rw [← hNeq]; exact hNd
        push_cast
        linear_combination -hNd'
      · have hlt : (k:ℚ) + 1 < N := not_le.mp hsnap
        rw [if_neg (by
          push_neg
          refine ⟨hOn, by simp, hD, ?_⟩
          show |d| < |c₀ + (k:ℚ) * d - t|
          rw [habs2]
          nlinarith [habs])]
        rw [if_neg (by simp [jsOptNe])]
        simp only [Option.getD_some, GlideState.mk.injEq]
        refine ⟨trivial, trivial, trivial, trivial, ?_, trivial⟩
        congr 1
        push_cast
        ring

/-- Claim C8 (amended): with glide disabled, `getGlideFrequency_` returns the
target on the very next sample regardless of prior pitch.  With glide enabled,
duration `D > 0`, sample interval `T > 0`, `D/T ≥ 1`, current glide pitch
`c₀`, a changed target `t`, and the remaining distance `|c₀ - t|` strictly
larger than the magnitude of the (possibly stale) previous glide delta — the
snap test uses the stale delta, which is what the counterexample exploits —
the pitch moves by the constant per-sample delta `(t - c₀)/(D/T)`, computed
once at the first call, and returns exactly `t` for the first time on call
number `ceil(D/T)`. -/
theorem glide_off_snap_and_glide_on_ceil (s : GlideState) (t c₀ : ℚ)
    (hOn : s.isGlideOn = true) (hcur : s.currentGlidePitch = some c₀)
    (hD : 0 < s.glideDuration) (hT : 0 < s.SAMPLE_INTERVAL)
    (hN1 : 1 ≤ s.glideDuration / s.SAMPLE_INTERVAL)
    (hstale : |s.glideDelta.getD 0| < |c₀ - t|)
    (htgt : jsOptNe s.targetGlidePitch t = true) :
    (∀ (s' : GlideState) (t' : ℚ), s'.isGlideOn = false →
      (getGlideFrequency s' t').1 = t') ∧
    (∀ m : ℕ, 1 ≤ m → (m : ℚ) < s.glideDuration / s.SAMPLE_INTERVAL →
      glideOut t s (m - 1) =
        c₀ + (m : ℚ) * ((t - c₀) / (s.glideDuration / s.SAMPLE_INTERVAL)) ∧
      glideOut t s (m - 1) ≠ t) ∧
    glideOut t s ((⌈s.glideDuration / s.SAMPLE_INTERVAL⌉).toNat - 1) = t := by
  have hN0 : 0 < s.glideDuration / s.SAMPLE_INTERVAL := div_pos hD hT
  have hct : c₀ - t ≠ 0 := by
    intro hh
    rw [hh, abs_zero] at hstale
    exact absurd hstale (not_lt.mpr (abs_nonneg _))
  have htc : t - c₀ ≠ 0 := fun hh => hct (by linarith)
  set N := s.glideDuration / s.SAMPLE_INTERVAL with hNdef
  set d := (t - c₀) / N with hddef
  have hd0 : d ≠ 0 := div_ne_zero htc hN0.ne'
  have habs : 0 < |d| := abs_pos.mpr hd0
  have hNd : N * d = t - c₀ := by
    rw [hddef]
    field_simp
  have hchar := glide_run_char s t c₀ hOn hcur hD hT hstale htgt
  refine ⟨?_, ?_, ?_⟩
  · intro s' t' hoff
    simp [getGlideFrequency, hoff]
  · intro m hm1 hmN
    have hmm : m - 1 + 1 = m := Nat.succ_pred_eq_of_pos hm1
    have hsome := glideOut_eq_next_cur t s (m - 1)
    rw [hmm, hchar m hm1 (le_of_lt hmN)] at hsome
    have hout : glideOut t s (m - 1) = c₀ + (m:ℚ) * d := by
      simpa using hsome
    refine ⟨hout, ?_⟩
    rw [hout]
    intro hh
    have : d * ((m:ℚ) - N) = 0 := by linear_combination hh - hNd
    rcases mul_eq_zero.mp this with h | h
    · exact hd0 h
    · have : (m:ℚ) = N := by linarith [sub_eq_zero.mp h]
      exact absurd this (ne_of_lt hmN)
  · set M := (⌈N⌉).toNat with hMdef
    have hceil1 : (1:ℤ) ≤ ⌈N⌉ := by
      have := Int.le_ceil N
      have h1 : (1:ℚ) ≤ (⌈N⌉ : ℚ) := le_trans hN1 this
      exact_mod_cast h1
    have hMQ : (M : ℚ) = ((⌈N⌉ : ℤ) : ℚ) := by
      rw [hMdef]
      norm_cast
      omega
    have hNleM : N ≤ (M : ℚ) := by
      rw [hMQ]
      exact Int.le_ceil N
    have hM1 : 1 ≤ M := by
      rw [hMdef]
      omega
    by_cases hMeq : M = 1
    · -- here N = 1 exactly, and the first call already lands on the target
      have hNeq : N = 1 := by
        have : (M : ℚ) = 1 := by rw [hMeq]; norm_num
        rw [this] at hNleM
        linarith
      rw [hMeq]
      have hsome := glideOut_eq_next_cur t s 0
      rw [hchar 1 (le_refl 1) (by rw [← hNdef, hNeq]; norm_num)] at hsome
      have hout : glideOut t s 0 = c₀ + (1:ℚ) * d := by
        simpa using hsome
      rw [show (1:ℕ) - 1 = 0 from rfl, hout]
      have : N * d = t - c₀ := hNd
      rw [hNeq] at this
      linarith
    · have hM2 : 2 ≤ M := by omega
      have hM1k : 1 ≤ M - 1 := by omega
      have hMm : M - 1 + 1 = M := Nat.succ_pred_eq_of_pos hM1
      have hMpredN : ((M - 1 : ℕ) : ℚ) < N := by
        have h1 : ((M - 1 : ℕ) : ℤ) < ⌈N⌉ := by
          rw [hMdef]
          omega
        have := Int.lt_ceil.mp h1
        exact_mod_cast this
      have hprev := hchar (M - 1) hM1k (le_of_lt hMpredN)
      have hkey : c₀ + ((M - 1 : ℕ) : ℚ) * d - t = d * (((M - 1 : ℕ) : ℚ) - N) := by
        linear_combination hNd
      have habs2 : |c₀ + ((M - 1 : ℕ) : ℚ) * d - t| = |d| * (N - ((M - 1 : ℕ) : ℚ)) := by
        rw [hkey, abs_mul,
          abs_of_nonpos (show ((M - 1 : ℕ) : ℚ) - N ≤ 0 by linarith)]
        ring
      have hMcast : ((M - 1 : ℕ) : ℚ) = (M : ℚ) - 1 := by
        push_cast [hM1]
        ring
      simp only [glideOut]
      rw [hprev]
      simp only [getGlideFrequency]
      rw [if_pos (Or.inr (Or.inr (Or.inr (by
        show |c₀ + ((M - 1 : ℕ) : ℚ) * d - t| ≤ |d|
        rw [habs2]
        have hb : N - ((M - 1 : ℕ) : ℚ) ≤ 1 := by
          rw [hMcast]
          linarith
        nlinarith [habs]))))]

/-- Claim C8 witness: glide on with duration 2 s at sample interval 1 s,
current pitch 0, stale delta 0, previous target 9, new target 4: the first
call returns 2 (one step of (4-0)/2), the second call — sample ceil(2/1) = 2
— returns exactly 4. -/
theorem glide_off_snap_and_glide_on_ceil_witness :
    glideOut 4 ⟨true, 2, 1, some 0, some 0, some 9⟩ 0 = 2 ∧
    glideOut 4 ⟨true, 2, 1, some 0, some 0, some 9⟩ 1 = 4 := by
  have h := glide_off_snap_and_glide_on_ceil ⟨true, 2, 1, some 0, some 0, some 9⟩
    4 0 rfl rfl (by norm_num) (by norm_num) (by norm_num)
    (by norm_num) (by norm_num [jsOptNe, bne_iff_ne])
  constructor
  · have h1 := (h.2.1 1 (le_refl 1) (by norm_num)).1
    rw [show (1:ℕ) - 1 = 0 from rfl] at h1
    rw [h1]
    norm_num
  · have h2 := h.2.2
    norm_num [Int.toNat_ofNat] at h2
    exact h2

/-! ### Claim C9 -/

/-- Claim C9: `LowPassFilter.startAttack` first cancels any previously
scheduled changes on the frequency parameter, then schedules exactly: the
value held at `cutoffFrequency` at the current time, an exponential ramp
reaching `contour * cutoffFrequency` at `attackTime` seconds later, and an
exponential ramp reaching
`cutoffFrequency + sustainLevel * (contour * cutoffFrequency - cutoffFrequency)`
at `attackTime + decayTime` seconds after the start. -/
theorem lpf_startAttack_schedule (f : LowPassFilter) (now : ℚ) :
    LowPassFilter.startAttack f now =
      [AudioParamCmd.cancelScheduledValues now,
       AudioParamCmd.setValue f.cutoffFrequency,
       AudioParamCmd.setValueAtTime f.cutoffFrequency now,
       AudioParamCmd.exponentialRampToValueAtTime
         (f.contour * f.cutoffFrequency) (now + f.attackTime),
       AudioParamCmd.exponentialRampToValueAtTime
         (f.cutoffFrequency +
           f.sustainLevel * (f.contour * f.cutoffFrequency - f.cutoffFrequency))
         (now + f.attackTime + f.decayTime)] := rfl

/-! ### Claim C10 -/

theorem fillLoop_fst (tf pb : ℚ) (ms : Option (ℕ → ℚ)) (fm : FillMode)
    (dv : ℚ) (o : Oscillator) (b : StereoBuffer) (n : ℕ) :
    (fillLoop tf pb ms fm dv n (o, b)).1 = oscStates tf pb ms o n := by
  induction n with
  | zero => rfl
  | succ n ih =>
      simp only [fillLoop, oscStates, ih]

theorem fillLoop_spec (tf pb : ℚ) (ms : Option (ℕ → ℚ)) (fm : FillMode)
    (dv : ℚ) (o : Oscillator) (b : StereoBuffer) (n : ℕ) :
    (∀ i, n ≤ i → (fillLoop tf pb ms fm dv n (o, b)).2.right i = b.right i) ∧
    (∀ i, i < n →
      (fillLoop tf pb ms fm dv n (o, b)).2.right i =
        fillCombine fm dv (b.right i) (audioLevelAt tf pb ms o i)) ∧
    ((fm = FillMode.CLOBBER ∨ fm = FillMode.ADD) →
      (fillLoop tf pb ms fm dv n (o, b)).2.left = b.left) ∧
    (b.left = none → (fillLoop tf pb ms fm dv n (o, b)).2.left = none) ∧
    (∀ l, fm = FillMode.MIX → b.left = some l →
      ∃ lm, (fillLoop tf pb ms fm dv n (o, b)).2.left = some lm ∧
        (∀ i, i < n → lm i = (fillLoop tf pb ms fm dv n (o, b)).2.right i) ∧
        (∀ i, n ≤ i → lm i = l i)) := by
  induction n with
  | zero =>
      refine ⟨fun i _ => rfl, fun i hi => absurd hi (Nat.not_lt_zero i),
        fun _ => rfl, fun h => h, fun l _ hl => ⟨l, hl, ?_, fun i _ => rfl⟩⟩
      intro i hi
      exact absurd hi (Nat.not_lt_zero i)
  | succ n ih =>
      obtain ⟨ih1, ih2, ih3, ih4, ih5⟩ := ih
      have hlvl :
          (oscStep tf pb ms n (fillLoop tf pb ms fm dv n (o, b)).1).1 =
            audioLevelAt tf pb ms o n := by
        rw [fillLoop_fst]
        rfl
      cases fm with
      | CLOBBER =>
          refine ⟨?_, ?_, fun _ => ?_, fun h => ?_, fun l hfm _ => ?_⟩
          · intro i hi
            simp only [fillLoop, fillSample]
            rw [Function.update_noteq (by omega)]
            exact ih1 i (by omega)
          · intro i hi
            rcases Nat.lt_succ_iff_lt_or_eq.mp hi with h | h
            · simp only [fillLoop, fillSample]
              rw [Function.update_noteq (by omega)]
              exact ih2 i h
            · subst h
              simp only [fillLoop, fillSample]
              rw [Function.update_same, hlvl]
              rfl
          · simp only [fillLoop, fillSample]
            exact ih3 (Or.inl rfl)
          · simp only [fillLoop, fillSample]
            exact ih4 h
          · exact absurd hfm (by simp)
      | ADD =>
          refine ⟨?_, ?_, fun _ => ?_, fun h => ?_, fun l hfm _ => ?_⟩
          · intro i hi
            simp only [fillLoop, fillSample]
            rw [Function.update_noteq (by omega)]
            exact ih1 i (by omega)
          · intro i hi
            rcases Nat.lt_succ_iff_lt_or_eq.mp hi with h | h
            · simp only [fillLoop, fillSample]
              rw [Function.update_noteq (by omega)]
              exact ih2 i h
            · subst h
              simp only [fillLoop, fillSample]
              rw [Function.update_same, hlvl, ih1 i (le_refl i)]
              rfl
          · simp only [fillLoop, fillSample]
            exact ih3 (Or.inr rfl)
          · simp only [fillLoop, fillSample]
            exact ih4 h
          · exact absurd hfm (by simp)
      | MIX =>
          have hright : ∀ i,
              (fillLoop tf pb ms FillMode.MIX dv (n + 1) (o, b)).2.right i =
                Function.update (fillLoop tf pb ms FillMode.MIX dv n (o, b)).2.right
                  n (((fillLoop tf pb ms FillMode.MIX dv n (o, b)).2.right n +
                    audioLevelAt tf pb ms o n) / dv) i := by
            intro i
            simp only [fillLoop, fillSample, hlvl]
            cases hbl : (fillLoop tf pb ms FillMode.MIX dv n (o, b)).2.left <;>
              simp [hbl]
          refine ⟨?_, ?_, fun hcl => ?_, fun h => ?_, fun l _ hl => ?_⟩
          · intro i hi
            rw [hright i, Function.update_noteq (by omega)]
            exact ih1 i (by omega)
          · intro i hi
            rcases Nat.lt_succ_iff_lt_or_eq.mp hi with h | h
            · rw [hright i, Function.update_noteq (by omega)]
              exact ih2 i h
            · subst h
              rw [hright i, Function.update_same, ih1 i (le_refl i)]
              rfl
          · rcases hcl with h | h <;> exact absurd h (by simp)
          · have hleft := ih4 h
            simp only [fillLoop, fillSample]
            rw [hleft]
          · obtain ⟨lm, hlm, hlm1, hlm2⟩ := ih5 l rfl hl
            refine ⟨Function.update lm n
              ((fillLoop tf pb ms FillMode.MIX dv (n + 1) (o, b)).2.right n),
              ?_, ?_, ?_⟩
            · simp only [fillLoop, fillSample, hlvl]
              rw [hlm]
            · intro i hi
              rcases Nat.lt_succ_iff_lt_or_eq.mp hi with h | h
              · rw [Function.update_noteq (by omega), hlm1 i h, hright i,
                  Function.update_noteq (by omega)]
              · subst h
                rw [Function.update_same]
            · intro i hi
              rw [Function.update_noteq (by omega)]
              exact hlm2 i (by omega)

/-- Claim C10: in every `fillAudioBuffer` call, channel 0 is written at every
sample index below the buffer length according to the fill mode (overwritten
with the generated level for CLOBBER, accumulated for ADD, accumulated and
divided by the mix divisor for MIX) and untouched beyond it; channel 1 is left
completely unchanged when the fill mode is CLOBBER or ADD, and under MIX,
when channel 1 exists, each of its samples below the buffer length is set
equal to the corresponding channel-0 sample, the rest staying unchanged (an
absent channel 1 stays absent). -/
theorem fillAudioBuffer_channels (len : ℕ) (tf pb : ℚ) (ms : Option (ℕ → ℚ))
    (fm : FillMode) (dv : ℚ) (o : Oscillator) (b : StereoBuffer) :
    (∀ i, len ≤ i →
      (fillAudioBuffer len tf pb ms fm dv o b).2.right i = b.right i) ∧
    (∀ i, i < len →
      (fillAudioBuffer len tf pb ms fm dv o b).2.right i =
        fillCombine fm dv (b.right i) (audioLevelAt tf pb ms (modAlloc o) i)) ∧
    ((fm = FillMode.CLOBBER ∨ fm = FillMode.ADD) →
      (fillAudioBuffer len tf pb ms fm dv o b).2.left = b.left) ∧
    (b.left = none → (fillAudioBuffer len tf pb ms fm dv o b).2.left = none) ∧
    (∀ l, fm = FillMode.MIX → b.left = some l →
      ∃ lm, (fillAudioBuffer len tf pb ms fm dv o b).2.left = some lm ∧
        (∀ i, i < len →
          lm i = (fillAudioBuffer len tf pb ms fm dv o b).2.right i) ∧
        (∀ i, len ≤ i → lm i = l i)) :=
  fillLoop_spec tf pb ms fm dv (modAlloc o) b len

/-- Claim C10 witness: a one-sample ADD fill leaves an existing channel 1
untouched, and a one-sample MIX fill sets channel 1 equal to channel 0. -/
theorem fillAudioBuffer_channels_witness :
    ((fillAudioBuffer 1 440 1 none FillMode.ADD 1
        ⟨1/8, 0, 1, WaveForm.SQUARE, false, false, 0, none,
          ⟨false, 0, 1/8, none, none, none⟩,
          ⟨1/8, 1/2, Phase.SUSTAIN, 1, 1, 1, 1, 1/2, 1⟩⟩
        ⟨fun _ => 0, some (fun _ => 7)⟩).2.left = some (fun _ => 7)) ∧
    (∃ lm, (fillAudioBuffer 1 440 1 none FillMode.MIX 1
        ⟨1/8, 0, 1, WaveForm.SQUARE, false, false, 0, none,
          ⟨false, 0, 1/8, none, none, none⟩,
          ⟨1/8, 1/2, Phase.SUSTAIN, 1, 1, 1, 1, 1/2, 1⟩⟩
        ⟨fun _ => 0, some (fun _ => 7)⟩).2.left = some lm ∧
      lm 0 = (fillAudioBuffer 1 440 1 none FillMode.MIX 1
        ⟨1/8, 0, 1, WaveForm.SQUARE, false, false, 0, none,
          ⟨false, 0, 1/8, none, none, none⟩,
          ⟨1/8, 1/2, Phase.SUSTAIN, 1, 1, 1, 1, 1/2, 1⟩⟩
        ⟨fun _ => 0, some (fun _ => 7)⟩).2.right 0) := by
  constructor
  · exact (fillAudioBuffer_channels 1 440 1 none FillMode.ADD 1 _ _).2.2.1
      (Or.inr rfl)
  · obtain ⟨lm, hlm, hlm1, _⟩ :=
      (fillAudioBuffer_channels 1 440 1 none FillMode.MIX 1
        ⟨1/8, 0, 1, WaveForm.SQUARE, false, false, 0, none,
          ⟨false, 0, 1/8, none, none, none⟩,
          ⟨1/8, 1/2, Phase.SUSTAIN, 1, 1, 1, 1, 1/2, 1⟩⟩
        ⟨fun _ => 0, some (fun _ => 7)⟩).2.2.2.2 (fun _ => 7) rfl rfl
    exact ⟨lm, hlm, hlm1 0 (by norm_num)⟩

/-! ### Claim C3 -/

/-- Claim C3 counterexample: with activeNote 0, range multiplier 1, pitch bend
0 (ratio 1), keyboard tracking on, modulation off and glide settled, the
generated frequency is `55 * 2^(-1/3)` Hz — about 43.65 Hz — which is
strictly less than, hence not equal to, the claimed 55 Hz, because
`NOTE_OFFSET_ = -4` shifts note 0 a major third below the 55 Hz reference. -/
theorem note_zero_frequency_cex :
    (getPitchBend 0 true : ℝ) * getInstantaneousFrequency 1 true 0 =
      55 * (2:ℝ) ^ (-(1:ℝ)/3) ∧
    55 * (2:ℝ) ^ (-(1:ℝ)/3) < 55 ∧
    (getPitchBend 0 true : ℝ) * getInstantaneousFrequency 1 true 0 ≠ 55 := by
  have hpb : getPitchBend 0 true = 1 := by norm_num [getPitchBend]
  have hfreq : getInstantaneousFrequency 1 true 0 = 55 * (2:ℝ) ^ (-(1:ℝ)/3) := by
    unfold getInstantaneousFrequency BASE_FREQUENCY NOTE_OFFSET
    norm_num
  have hx : (0:ℝ) < (2:ℝ) ^ (-(1:ℝ)/3) := Real.rpow_pos_of_pos (by norm_num) _
  have hlt : (2:ℝ) ^ (-(1:ℝ)/3) < 1 :=
    Real.rpow_lt_one_of_one_lt_of_neg (by norm_num) (by norm_num)
  refine ⟨by rw [hpb, hfreq]; norm_num, by nlinarith, ?_⟩
  rw [hpb, hfreq]
  push_cast
  nlinarith

/-- Claim C3 (amended): with keyboard tracking on, range 1 and pitch bend 0,
the oscillator's instantaneous frequency at activeNote 0 equals exactly
`55 * 2^(-1/3)` Hz (not 55 Hz); the note that generates exactly 55 Hz is
activeNote 4, which cancels `NOTE_OFFSET_ = -4`.  The remaining per-sample
factors are the identity in the claimed configuration: the pitch-bend ratio
at bend 0 is 1, and frequency modulation, when off, leaves the base frequency
unchanged. -/
theorem note_frequency_with_offset :
    (getPitchBend 0 true : ℝ) * getInstantaneousFrequency 1 true 0 =
      55 * (2:ℝ) ^ (-(1:ℝ)/3) ∧
    (getPitchBend 0 true : ℝ) * getInstantaneousFrequency 1 true 4 = 55 ∧
    getPitchBend 0 true = 1 ∧
    (∀ (b : ℚ) (ms : Option (ℕ → ℚ)) (i : ℕ),
      getModulationFrequency false b ms i = b) := by
  have hpb : getPitchBend 0 true = 1 := by norm_num [getPitchBend]
  have hfreq : getInstantaneousFrequency 1 true 0 = 55 * (2:ℝ) ^ (-(1:ℝ)/3) := by
    unfold getInstantaneousFrequency BASE_FREQUENCY NOTE_OFFSET
    norm_num
  refine ⟨by rw [hpb, hfreq]; norm_num, ?_, hpb, ?_⟩
  · have h4 : getInstantaneousFrequency 1 true 4 = 55 := by
      unfold getInstantaneousFrequency BASE_FREQUENCY NOTE_OFFSET
      norm_num
    rw [hpb, h4]
    norm_num
  · intro b ms i
    cases ms <;> simp [getModulationFrequency]

end Moog
